import Mathlib

/-!
Shallow embedding of the customer CRUD backend (`app/`).

The relational store is modelled as explicit state: a `DB` record holding the
`clientes` and `ordenes` tables as lists of rows.  Each service method of
`app/services/cliente_service.py` becomes a pure function from the state (and
the request data) to its result together with the successor state.  SQLAlchemy
query primitives are translated to their list counterparts: `.first()` becomes
`List.find?`, `.all()` with a filter becomes `List.filter`, `ORDER BY` on a
string column becomes a sort by codepoint-lexicographic order, and `ilike`
becomes a case-insensitive SQL `LIKE` pattern matcher (`%` and `_` wildcards).

The token service of `app/services/auth_service.py` is embedded with an
idealized model of the JWT library: an encoded token is either malformed or a
signed record of its claims, expiry and signing key, and signature
verification is modelled as comparison of the signing key (ideal
unforgeability).  Clock time is passed explicitly as a natural number of
seconds.  The bcrypt primitive of passlib is modelled as an injective tagging
function.
-/

/-- Embeds the `Cliente` ORM model of `app/models/models.py`: one row of the
`clientes` table.  The contact number is a machine integer in the source and
is modelled as `Nat`; `direccion` is nullable. -/
structure Cliente where
  id : Nat
  nombre : String
  apellido : String
  email : String
  contacto : Nat
  direccion : Option String
deriving Repr, DecidableEq

/-- Embeds the `Orden` ORM model of `app/models/models.py`: one row of the
`ordenes` table, holding a foreign key to `clientes`. -/
structure Orden where
  consecutivo : Nat
  tipo : String
  id_cliente : Nat
deriving Repr, DecidableEq

/-- The relational store seen by `ClienteService`: the `clientes` and
`ordenes` tables. -/
structure DB where
  clientes : List Cliente
  ordenes : List Orden
deriving Repr, DecidableEq

/-- Embeds the `ClienteCreate` request schema of `app/schemas/schemas.py`
(all fields required, `direccion` optional/nullable). -/
structure ClienteCreate where
  id : Nat
  nombre : String
  apellido : String
  email : String
  contacto : Nat
  direccion : Option String
deriving Repr, DecidableEq

/-- The row persisted for a create request (`Cliente(**cliente_data.model_dump())`). -/
def ClienteCreate.toCliente (d : ClienteCreate) : Cliente :=
  ⟨d.id, d.nombre, d.apellido, d.email, d.contacto, d.direccion⟩

/-- Embeds the `ClienteUpdate` request schema: every field optional.  `none`
models a field absent from `model_dump(exclude_unset=True)`; for the nullable
`direccion` column, `some none` models an explicit null. -/
structure ClienteUpdate where
  nombre : Option String := none
  apellido : Option String := none
  email : Option String := none
  contacto : Option Nat := none
  direccion : Option (Option String) := none
deriving Repr, DecidableEq

/-- `not update_data` in `update_cliente`: the partial update supplies no
field at all. -/
def ClienteUpdate.isEmptyUpdate (u : ClienteUpdate) : Bool :=
  u.nombre.isNone && u.apellido.isNone && u.email.isNone &&
    u.contacto.isNone && u.direccion.isNone

/-- The `setattr` loop of `update_cliente`: each supplied field overwrites the
row's field, absent fields are kept. -/
def applyUpdate (c : Cliente) (u : ClienteUpdate) : Cliente :=
  { c with
    nombre := u.nombre.getD c.nombre
    apellido := u.apellido.getD c.apellido
    email := u.email.getD c.email
    contacto := u.contacto.getD c.contacto
    direccion := u.direccion.getD c.direccion }

/-- `ClienteService.create_cliente`: one combined uniqueness pre-check
(`or_(Cliente.id == data.id, Cliente.email == data.email)` + `.first()`),
returning `None` on a hit, otherwise persisting the new row. -/
def create_cliente (db : DB) (d : ClienteCreate) : Option Cliente × DB :=
  match db.clientes.find? (fun c => c.id == d.id || c.email == d.email) with
  | some _ => (none, db)
  | none => (some d.toCliente, { db with clientes := db.clientes ++ [d.toCliente] })

/-- `ClienteService.get_cliente_by_id`. -/
def get_cliente_by_id (db : DB) (cliente_id : Nat) : Option Cliente :=
  db.clientes.find? (fun c => c.id == cliente_id)

/-- `ClienteService.get_all_clientes`. -/
def get_all_clientes (db : DB) : List Cliente :=
  db.clientes

/-- The three ways `update_cliente` can come back to its caller: `None`
(id not found), a raised `ValueError` carrying a message, or the updated row. -/
inductive UpdateResult where
  | notFound
  | validationError (msg : String)
  | ok (c : Cliente)
deriving Repr, DecidableEq

/-- The email pre-check of `update_cliente`: an email field is supplied, it
differs from the row's current email, and some other row (`Cliente.id !=
cliente_id`) already holds it. -/
def emailConflict (db : DB) (cliente_id : Nat) (cliente : Cliente) (u : ClienteUpdate) : Bool :=
  match u.email with
  | none => false
  | some e =>
    e != cliente.email &&
      (db.clientes.find? (fun c => c.email == e && c.id != cliente_id)).isSome

/-- `ClienteService.update_cliente`: find by id, no-op on an empty partial
update, raise on an email conflict, otherwise apply the supplied fields to
the found row and commit. -/
def update_cliente (db : DB) (cliente_id : Nat) (u : ClienteUpdate) : UpdateResult × DB :=
  match db.clientes.find? (fun c => c.id == cliente_id) with
  | none => (.notFound, db)
  | some cliente =>
    if u.isEmptyUpdate then (.ok cliente, db)
    else if emailConflict db cliente_id cliente u then
      (.validationError "El email ya está registrado", db)
    else
      (.ok (applyUpdate cliente u),
        { db with
          clientes := db.clientes.map fun c =>
            if c.id == cliente_id then applyUpdate c u else c })

/-- The three-way outcome of `delete_cliente` (`None` / `False` / `True` in
the source). -/
inductive DeleteResult where
  | notFound
  | blocked
  | deleted
deriving Repr, DecidableEq

/-- The `cliente.ordenes` relationship: the `ordenes` rows whose foreign key
points at the row. -/
def clienteOrdenes (db : DB) (c : Cliente) : List Orden :=
  db.ordenes.filter (fun o => o.id_cliente == c.id)

/-- `ClienteService.delete_cliente`: find by id, refuse when the row has
associated orders, otherwise remove the row.  The `delete-orphan` cascade of
the ORM relationship is modelled by dropping the row's orders on an actual
delete (the guard makes this a no-op). -/
def delete_cliente (db : DB) (cliente_id : Nat) : DeleteResult × DB :=
  match db.clientes.find? (fun c => c.id == cliente_id) with
  | none => (.notFound, db)
  | some cliente =>
    if (clienteOrdenes db cliente).isEmpty then
      (.deleted,
        { clientes := db.clientes.filter (fun c => c.id != cliente_id)
          ordenes := db.ordenes.filter (fun o => o.id_cliente != cliente.id) })
    else (.blocked, db)

/-- Charwise ASCII lowering (`Char.toLower`), the case folding applied by
`ilike`. -/
def lowerList (s : List Char) : List Char :=
  s.map Char.toLower

/-- Helper for the `%` wildcard of SQL `LIKE`: try to match `f` against every
suffix of the string. -/
def skipStar (f : List Char → Bool) : List Char → Bool
  | [] => f []
  | c :: s => f (c :: s) || skipStar f s

/-- SQL `LIKE` pattern matching: `%` matches any run of characters, `_`
matches any single character, every other pattern character matches itself. -/
def likeMatch : List Char → List Char → Bool
  | [], s => s.isEmpty
  | p :: ps, s =>
    if p == '%' then skipStar (likeMatch ps) s
    else
      match s with
      | [] => false
      | c :: t => (p == '_' || p == c) && likeMatch ps t

/-- `column.ilike(f"%{q}%")`: case-insensitive `LIKE` against the pattern `q`
wrapped in `%` wildcards. -/
def ilikeContains (field : String) (q : String) : Bool :=
  likeMatch ('%' :: (lowerList q.data ++ ['%'])) (lowerList field.data)

/-- The search filter of `search_and_sort_clientes`: `ilike` on `nombre`,
`apellido` or `email` (any one match qualifies). -/
def matchesQuery (c : Cliente) (q : String) : Bool :=
  ilikeContains c.nombre q || ilikeContains c.apellido q || ilikeContains c.email q

/-- The filtering stage of `search_and_sort_clientes`: `if q:` in the source,
so a missing or empty query leaves the population unfiltered. -/
def filterClientes (db : DB) (q : Option String) : List Cliente :=
  match q with
  | none => db.clientes
  | some s =>
    if s.data.isEmpty then db.clientes
    else db.clientes.filter (fun c => matchesQuery c s)

/-- Codepoint-lexicographic comparison of strings (as char lists), the order
`ORDER BY` uses on a string column. -/
def charListLe : List Char → List Char → Bool
  | [], _ => true
  | _ :: _, [] => false
  | a :: as, b :: bs =>
    decide (a.toNat < b.toNat) || (a.toNat == b.toNat && charListLe as bs)

/-- The sort key chosen by `search_and_sort_clientes`: `nombre` when asked
for, `apellido` in every other case (the source's default branch). -/
def sortKey (sort : String) (c : Cliente) : String :=
  if sort == "nombre" then c.nombre else c.apellido

/-- The row order requested from `ORDER BY`: the chosen key, descending
exactly when `order == "desc"`. -/
def clienteLe (sort ord : String) (a b : Cliente) : Bool :=
  if ord == "desc" then charListLe (sortKey sort b).data (sortKey sort a).data
  else charListLe (sortKey sort a).data (sortKey sort b).data

/-- `clienteLe` as a relation, for the sorting lemmas. -/
def clienteRel (sort ord : String) (a b : Cliente) : Prop :=
  clienteLe sort ord a b = true

instance clienteRelDecidable (sort ord : String) : DecidableRel (clienteRel sort ord) :=
  fun a b => inferInstanceAs (Decidable (clienteLe sort ord a b = true))

/-- The `ORDER BY` stage: a sorted permutation of the filtered rows
(`List.insertionSort`, any sorted permutation is a faithful model since SQL
leaves the order of ties unspecified). -/
def sortClientes (sort ord : String) (l : List Cliente) : List Cliente :=
  List.insertionSort (clienteRel sort ord) l

/-- `ClienteService.search_and_sort_clientes`: filter, count the matches
before pagination, sort, then apply `offset`/`limit`. -/
def search_and_sort_clientes (db : DB) (q : Option String) (sort ord : String)
    (offset limit : Nat) : List Cliente × Nat :=
  let filtered := filterClientes db q
  let total := filtered.length
  let sorted := sortClientes sort ord filtered
  ((sorted.drop offset).take limit, total)

/-- Default signing key of `app/core/config.py`. -/
def SECRET_KEY : String := "change-this-to-a-secure-random-key-in-production"

/-- Default signing algorithm of `app/core/config.py`. -/
def ALGORITHM : String := "HS256"

/-- Default expiry window (minutes) of `app/core/config.py`. -/
def ACCESS_TOKEN_EXPIRE_MINUTES : Nat := 60

/-- Idealized model of an encoded JWT: either an unparseable string, or the
signed record of its claims, expiry timestamp (seconds), signing key and
algorithm.  Under ideal unforgeability a signature verifies exactly when the
token was produced with the verifier's key, so the key is carried in place of
the signature. -/
inductive EncodedJWT where
  | malformed (raw : String)
  | signed (claims : List (String × String)) (exp : Nat) (key : String) (alg : String)
deriving Repr, DecidableEq

/-- `AuthService.create_access_token`: copy the claims, attach the expiry
(`now` plus the supplied delta, one hour when absent) and sign with the
process-wide key.  `now` is the issuance clock reading in seconds. -/
def create_access_token (data : List (String × String)) (now : Nat)
    (expires_delta : Option Nat) : EncodedJWT :=
  .signed data (now + expires_delta.getD (ACCESS_TOKEN_EXPIRE_MINUTES * 60))
    SECRET_KEY ALGORITHM

/-- `AuthService.decode_token`: `jwt.decode` succeeds only on a well-formed
token signed with the right key and algorithm whose expiry lies in the
future; the `"sub"` claim is then looked up (`payload.get("sub")`).  Every
failure collapses to `none`. -/
def decode_token (t : EncodedJWT) (now : Nat) : Option String :=
  match t with
  | .malformed _ => none
  | .signed claims exp key alg =>
    if key == SECRET_KEY && alg == ALGORITHM && decide (now < exp) then
      claims.lookup "sub"
    else none

/-- Embeds the `User` ORM model of `app/models/models.py`. -/
structure User where
  id : Nat
  username : String
  hashed_password : String
deriving Repr, DecidableEq

/-- Idealized model of the bcrypt primitive behind
`pwd_context.hash` (`AuthService.get_password_hash`): an injective tagging of
the password. -/
def get_password_hash (password : String) : String :=
  "bcrypt$" ++ password

/-- `AuthService.verify_password` under the idealized hash. -/
def verify_password (plain hashed : String) : Bool :=
  get_password_hash plain == hashed

/-- `AuthService.authenticate_user`, instrumented with the number of
`verify_password` invocations the call performs (its hash-verification
effort): the source returns `None` for an unknown username before any
verification, and runs exactly one verification when the username is found. -/
def authenticate_user (users : List User) (username password : String) :
    Option User × Nat :=
  match users.find? (fun u => u.username == username) with
  | none => (none, 0)
  | some user =>
    if verify_password password user.hashed_password then (some user, 1)
    else (none, 1)

/-! Derived predicates and concrete data used by the verification. -/

/-- A query free of the `LIKE` wildcard characters. -/
@[reducible] def CleanQuery (qs : List Char) : Prop :=
  ∀ ch ∈ qs, ch ≠ '%' ∧ ch ≠ '_'

/-- The claim's notion of a case-insensitive substring occurrence: after
charwise lowering, `q` appears contiguously inside `s`. -/
def SubstringCI (q s : String) : Prop :=
  ∃ l r, lowerList s.data = l ++ (lowerList q.data ++ r)

/-- Decidability of implications between decidable propositions, used to
evaluate the store invariants on concrete data. -/
instance decidableArrow (p q : Prop) [dp : Decidable p] [dq : Decidable q] :
    Decidable (p → q) :=
  match dp with
  | Decidable.isTrue hp =>
    match dq with
    | Decidable.isTrue hq => Decidable.isTrue fun _ => hq
    | Decidable.isFalse hq => Decidable.isFalse fun h => hq (h hp)
  | Decidable.isFalse hp => Decidable.isTrue fun h => absurd h hp

/-- The email-uniqueness invariant the service maintains on its store (the
`clientes.email` unique column). -/
@[reducible] def EmailUnique (db : DB) : Prop :=
  ∀ c1 ∈ db.clientes, ∀ c2 ∈ db.clientes, c1.email = c2.email → c1 = c2

/-- The spec's seeded example customer. -/
def juan : Cliente :=
  ⟨100001, "Juan", "Duran", "judu1@mail.com", 3001234567, none⟩

/-- A second concrete customer. -/
def ana : Cliente :=
  ⟨100002, "Ana", "Avila", "ana@mail.com", 3001234568, none⟩

/-- A third concrete customer. -/
def beto : Cliente :=
  ⟨100003, "Beto", "Zapata", "beto@mail.com", 3001234569, none⟩

/-- A store holding only `juan`. -/
def dbJuan : DB :=
  ⟨[juan], []⟩

/-- A store holding `juan` and `ana`. -/
def dbJA : DB :=
  ⟨[juan, ana], []⟩

/-- A store holding all three customers. -/
def dbJAB : DB :=
  ⟨[juan, ana, beto], []⟩

/-- An order associated with `juan`. -/
def ordenJuan : Orden :=
  ⟨1, "venta", 100001⟩

/-- A store in which `juan` has one order. -/
def dbConOrden : DB :=
  ⟨[juan, ana], [ordenJuan]⟩

/-- A partial update supplying no field. -/
def noFieldsUpdate : ClienteUpdate :=
  {}

/-- A partial update setting only the email to `ana`'s address. -/
def emailToAna : ClienteUpdate :=
  { email := some "ana@mail.com" }

/-- A partial update setting `juan`'s email to its own current value. -/
def selfEmailUpdate : ClienteUpdate :=
  { email := some "judu1@mail.com" }

/-- The credential store for the authentication examples. -/
def exUsers : List User :=
  [⟨1, "alice", get_password_hash "hunter2secret"⟩]

/-! Helper lemmas about characters and `LIKE` patterns. -/

/-- `Char.ofNat` on a valid codepoint evaluates to that codepoint. -/
theorem toNat_ofNat_valid (n : Nat) (h : n.isValidChar) : (Char.ofNat n).toNat = n := by
  unfold Char.ofNat
  rw [dif_pos h]
  rfl

/-- Characters with the same codepoint are equal. -/
theorem char_toNat_inj {a b : Char} (h : a.toNat = b.toNat) : a = b := by
  apply Char.ext
  exact UInt32.toNat.inj h

/-- `Char.toLower` written with an `if` on the codepoint. -/
theorem toLower_eq (c : Char) :
    c.toLower = if c.toNat ≥ 65 ∧ c.toNat ≤ 90 then Char.ofNat (c.toNat + 32) else c := rfl

/-- Lowering never produces a character outside `a`-`z` that the input was
not already: if `d` is not a lowercase letter and `c ≠ d`, then
`c.toLower ≠ d`. -/
theorem toLower_ne (c d : Char) (hc : c ≠ d) (hd : d.toNat < 97 ∨ 122 < d.toNat) :
    c.toLower ≠ d := by
  intro h
  rw [toLower_eq] at h
  split at h
  · rename_i hr
    have hv : (c.toNat + 32).isValidChar := Or.inl (by omega)
    have h2 := toNat_ofNat_valid (c.toNat + 32) hv
    rw [h] at h2
    omega
  · exact hc h

/-- Case folding preserves wildcard-freeness. -/
theorem cleanQuery_lower {qs : List Char} (h : CleanQuery qs) :
    CleanQuery (lowerList qs) := by
  intro ch hch
  rw [lowerList, List.mem_map] at hch
  obtain ⟨c, hc, rfl⟩ := hch
  obtain ⟨h1, h2⟩ := h c hc
  exact ⟨toLower_ne c '%' h1 (Or.inl (by decide)),
         toLower_ne c '_' h2 (Or.inl (by decide))⟩

/-- `skipStar f` succeeds exactly when `f` accepts some suffix. -/
theorem skipStar_iff (f : List Char → Bool) :
    ∀ s, skipStar f s = true ↔ ∃ l t, s = l ++ t ∧ f t = true
  | [] => by
    constructor
    · intro h
      exact ⟨[], [], rfl, h⟩
    · rintro ⟨l, t, hs, hf⟩
      obtain ⟨rfl, rfl⟩ := List.append_eq_nil.mp hs.symm
      exact hf
  | c :: s => by
    show (f (c :: s) || skipStar f s) = true ↔ _
    rw [Bool.or_eq_true, skipStar_iff f s]
    constructor
    · rintro (h | ⟨l, t, hs, hf⟩)
      · exact ⟨[], c :: s, rfl, h⟩
      · exact ⟨c :: l, t, by rw [hs, List.cons_append], hf⟩
    · rintro ⟨l, t, hs, hf⟩
      cases l with
      | nil =>
        left
        rw [List.nil_append] at hs
        rw [← hs] at hf
        exact hf
      | cons a l2 =>
        right
        rw [List.cons_append] at hs
        injection hs with h1 h2
        exact ⟨l2, t, h2, hf⟩

/-- The pattern consisting of a single `%` accepts every string. -/
theorem likeMatch_single_pct : ∀ t, likeMatch ['%'] t = true
  | [] => rfl
  | c :: t => by
    show (likeMatch [] (c :: t) || skipStar (likeMatch []) t) = true
    have h := likeMatch_single_pct t
    rw [show skipStar (likeMatch []) t = true from h]
    simp

/-- For a wildcard-free `qs`, the pattern `qs ++ ['%']` accepts exactly the
strings beginning with `qs`. -/
theorem likeMatch_clean_startsWith : ∀ (qs : List Char), CleanQuery qs →
    ∀ t, likeMatch (qs ++ ['%']) t = true ↔ ∃ r, t = qs ++ r
  | [], _, t => by
    rw [List.nil_append]
    exact ⟨fun _ => ⟨t, rfl⟩, fun _ => likeMatch_single_pct t⟩
  | q :: qs2, h, t => by
    have hq := h q (List.mem_cons_self q qs2)
    have hclean2 : CleanQuery qs2 := fun ch hch => h ch (List.mem_cons_of_mem _ hch)
    have hqpct : (q == '%') = false := by
      rw [beq_eq_false_iff_ne]
      exact hq.1
    have hqus : (q == '_') = false := by
      rw [beq_eq_false_iff_ne]
      exact hq.2
    cases t with
    | nil =>
      rw [List.cons_append]
      show (if (q == '%') = true then skipStar (likeMatch (qs2 ++ ['%'])) [] else false) = true ↔ _
      rw [hqpct]
      simp
    | cons c t2 =>
      rw [List.cons_append]
      show (if (q == '%') = true then skipStar (likeMatch (qs2 ++ ['%'])) (c :: t2)
            else ((q == '_' || q == c) && likeMatch (qs2 ++ ['%']) t2)) = true ↔ _
      rw [hqpct]
      simp only [Bool.false_eq_true, if_false, hqus, Bool.false_or, Bool.and_eq_true,
        beq_iff_eq, likeMatch_clean_startsWith qs2 hclean2 t2]
      constructor
      · rintro ⟨rfl, r, rfl⟩
        exact ⟨r, rfl⟩
      · rintro ⟨r, hr⟩
        rw [List.cons_append] at hr
        injection hr with h1 h2
        exact ⟨h1.symm, r, h2⟩

/-- A pattern starting with `%` accepts exactly the strings with an accepted
suffix. -/
theorem likeMatch_pct_iff (ps : List Char) (s : List Char) :
    likeMatch ('%' :: ps) s = true ↔ ∃ l t, s = l ++ t ∧ likeMatch ps t = true := by
  show skipStar (likeMatch ps) s = true ↔ _
  exact skipStar_iff (likeMatch ps) s

/-- For a wildcard-free `qs`, the `ilike`-style pattern `'%' :: qs ++ ['%']`
accepts exactly the strings containing `qs` contiguously. -/
theorem ilike_iff (qs : List Char) (h : CleanQuery qs) (s : List Char) :
    likeMatch ('%' :: (qs ++ ['%'])) s = true ↔ ∃ l r, s = l ++ (qs ++ r) := by
  rw [likeMatch_pct_iff]
  constructor
  · rintro ⟨l, t, hs, hf⟩
    rw [likeMatch_clean_startsWith qs h t] at hf
    obtain ⟨r, rfl⟩ := hf
    exact ⟨l, r, hs⟩
  · rintro ⟨l, r, hs⟩
    exact ⟨l, qs ++ r, hs, (likeMatch_clean_startsWith qs h _).mpr ⟨r, rfl⟩⟩

/-! Order facts needed for the `ORDER BY` stage. -/

/-- `charListLe` is total. -/
theorem charListLe_total : ∀ as bs : List Char,
    charListLe as bs = true ∨ charListLe bs as = true
  | [], _ => Or.inl rfl
  | _ :: _, [] => Or.inr rfl
  | a :: as, b :: bs => by
    simp only [charListLe, Bool.or_eq_true, decide_eq_true_eq, Bool.and_eq_true, beq_iff_eq]
    rcases Nat.lt_trichotomy a.toNat b.toNat with h | h | h
    · exact Or.inl (Or.inl h)
    · rcases charListLe_total as bs with ih | ih
      · exact Or.inl (Or.inr ⟨h, ih⟩)
      · exact Or.inr (Or.inr ⟨h.symm, ih⟩)
    · exact Or.inr (Or.inl h)

/-- `charListLe` is transitive. -/
theorem charListLe_trans : ∀ as bs cs : List Char,
    charListLe as bs = true → charListLe bs cs = true → charListLe as cs = true
  | [], _, _ => by
    intro _ _
    rfl
  | _ :: _, [], _ => by
    intro h _
    exact absurd h (by simp [charListLe])
  | _ :: _, _ :: _, [] => by
    intro _ h
    exact absurd h (by simp [charListLe])
  | a :: as, b :: bs, c :: cs => by
    simp only [charListLe, Bool.or_eq_true, decide_eq_true_eq, Bool.and_eq_true, beq_iff_eq]
    rintro (h1 | ⟨h1, h1t⟩) (h2 | ⟨h2, h2t⟩)
    · exact Or.inl (Nat.lt_trans h1 h2)
    · exact Or.inl (h2 ▸ h1)
    · exact Or.inl (h1 ▸ h2)
    · exact Or.inr ⟨h1.trans h2, charListLe_trans as bs cs h1t h2t⟩

/-- The requested row order is total. -/
theorem clienteLe_total (sort ord : String) (a b : Cliente) :
    clienteLe sort ord a b = true ∨ clienteLe sort ord b a = true := by
  unfold clienteLe
  split
  · exact charListLe_total (sortKey sort b).data (sortKey sort a).data
  · exact charListLe_total (sortKey sort a).data (sortKey sort b).data

/-- The requested row order is transitive. -/
theorem clienteLe_trans (sort ord : String) (a b c : Cliente) :
    clienteLe sort ord a b = true → clienteLe sort ord b c = true →
    clienteLe sort ord a c = true := by
  unfold clienteLe
  split
  · intro h1 h2
    exact charListLe_trans _ _ _ h2 h1
  · intro h1 h2
    exact charListLe_trans _ _ _ h1 h2


/-! The claims. -/

/-- C1: a create request is rejected (returning `none` and storing nothing)
exactly when some stored customer already has the requested id or the
requested email; otherwise the new customer is persisted and the stored
record returned.  In particular a second create with a duplicated id or a
duplicated email alone fails. -/
theorem c1_create_cliente_uniqueness (db : DB) (d : ClienteCreate) :
    ((∃ c ∈ db.clientes, c.id = d.id ∨ c.email = d.email) →
      create_cliente db d = (none, db)) ∧
    ((∀ c ∈ db.clientes, c.id ≠ d.id ∧ c.email ≠ d.email) →
      create_cliente db d =
        (some d.toCliente, { db with clientes := db.clientes ++ [d.toCliente] })) := by
  constructor
  · rintro ⟨c, hc, hor⟩
    unfold create_cliente
    cases hfind : db.clientes.find? (fun c => c.id == d.id || c.email == d.email) with
    | some x => rfl
    | none =>
      exfalso
      rw [List.find?_eq_none] at hfind
      have hp := hfind c hc
      simp only [Bool.or_eq_true, beq_iff_eq] at hp
      tauto
  · intro h
    unfold create_cliente
    have hnone : db.clientes.find? (fun c => c.id == d.id || c.email == d.email) = none := by
      rw [List.find?_eq_none]
      intro x hx
      have hp := h x hx
      simp only [Bool.or_eq_true, beq_iff_eq]
      tauto
    rw [hnone]

/-- Witness for C1: against the store `[juan, ana]`, a create re-using
`juan`'s id with a fresh email fails, a create re-using `juan`'s email with a
fresh id fails, and a fresh create persists. -/
theorem c1_create_cliente_uniqueness_witness :
    create_cliente dbJA ⟨100001, "Otro", "Perez", "otro@mail.com", 3009999999, none⟩ =
      (none, dbJA) ∧
    create_cliente dbJA ⟨100009, "Otra", "Gomez", "judu1@mail.com", 3009999998, none⟩ =
      (none, dbJA) ∧
    create_cliente dbJA ⟨100003, "Beto", "Zapata", "beto@mail.com", 3001234569, none⟩ =
      (some (ClienteCreate.toCliente ⟨100003, "Beto", "Zapata", "beto@mail.com", 3001234569, none⟩),
       { dbJA with clientes := dbJA.clientes ++
           [ClienteCreate.toCliente ⟨100003, "Beto", "Zapata", "beto@mail.com", 3001234569, none⟩] }) :=
  ⟨(c1_create_cliente_uniqueness dbJA _).1 ⟨juan, by decide, by decide⟩,
   (c1_create_cliente_uniqueness dbJA _).1 ⟨juan, by decide, by decide⟩,
   (c1_create_cliente_uniqueness dbJA _).2 (by decide)⟩

/-- C8: an update that supplies no field returns the stored record unchanged
and leaves the store untouched — a successful no-op, neither an error nor
`none`. -/
theorem c8_update_cliente_empty_noop (db : DB) (cliente_id : Nat) (c : Cliente)
    (u : ClienteUpdate)
    (hfind : get_cliente_by_id db cliente_id = some c)
    (hempty : u.isEmptyUpdate = true) :
    update_cliente db cliente_id u = (.ok c, db) := by
  unfold get_cliente_by_id at hfind
  unfold update_cliente
  rw [hfind]
  dsimp only
  rw [if_pos hempty]

/-- Witness for C8: the empty partial update on `juan` is a no-op. -/
theorem c8_update_cliente_empty_noop_witness :
    update_cliente dbJA 100001 noFieldsUpdate = (.ok juan, dbJA) :=
  c8_update_cliente_empty_noop dbJA 100001 juan noFieldsUpdate (by decide) (by decide)

/-- C10: whenever `update_cliente` fails with the email-conflict validation
error, the store is left entirely unchanged. -/
theorem c10_update_cliente_error_atomic (db : DB) (cliente_id : Nat) (u : ClienteUpdate)
    (msg : String)
    (h : (update_cliente db cliente_id u).1 = .validationError msg) :
    (update_cliente db cliente_id u).2 = db := by
  unfold update_cliente at h ⊢
  cases hfind : db.clientes.find? (fun c => c.id == cliente_id) with
  | none =>
    rfl
  | some cliente =>
    rw [hfind] at h
    dsimp only at h ⊢
    by_cases he : u.isEmptyUpdate = true
    · rw [if_pos he]
    · rw [if_neg he] at h ⊢
      by_cases hc : emailConflict db cliente_id cliente u = true
      · rw [if_pos hc]
      · rw [if_neg hc] at h
        simp at h

/-- Witness for C10: updating `juan`'s email to `ana`'s address errors and
leaves the store unchanged. -/
theorem c10_update_cliente_error_atomic_witness :
    (update_cliente dbJA 100001 emailToAna).2 = dbJA :=
  c10_update_cliente_error_atomic dbJA 100001 emailToAna
    "El email ya está registrado" (by decide)

/-- C2: on a store satisfying the email-uniqueness invariant, a partial
update that sets a stored customer's email to an address held by a different
customer fails with the validation error — an outcome distinct from
not-found and from a returned record — while setting the email to the
customer's own current address succeeds with no conflict check firing. -/
theorem c2_update_cliente_email_conflict (db : DB) (cliente_id : Nat) (c : Cliente)
    (huniq : EmailUnique db)
    (hfind : get_cliente_by_id db cliente_id = some c) :
    (∀ u e, u.email = some e →
      (∃ other ∈ db.clientes, other.id ≠ cliente_id ∧ other.email = e) →
      (update_cliente db cliente_id u).1 =
        .validationError "El email ya está registrado" ∧
      (update_cliente db cliente_id u).1 ≠ .notFound ∧
      ∀ x, (update_cliente db cliente_id u).1 ≠ .ok x) ∧
    (∀ u, u.email = some c.email →
      update_cliente db cliente_id u =
        (.ok (applyUpdate c u),
          { db with clientes := db.clientes.map fun x =>
              if x.id == cliente_id then applyUpdate x u else x })) := by
  unfold get_cliente_by_id at hfind
  have hmem : c ∈ db.clientes := List.mem_of_find?_eq_some hfind
  have hcid : c.id = cliente_id := by
    have hp := List.find?_some hfind
    rwa [beq_iff_eq] at hp
  constructor
  · intro u e he hex
    obtain ⟨other, hother, hne, heq⟩ := hex
    have hene : e ≠ c.email := by
      intro hcontra
      apply hne
      have hoc : other = c := huniq other hother c hmem (by rw [heq, hcontra])
      rw [hoc]
      exact hcid
    have hnotempty : ¬ u.isEmptyUpdate = true := by
      unfold ClienteUpdate.isEmptyUpdate
      rw [he]
      simp
    have hconf : emailConflict db cliente_id c u = true := by
      unfold emailConflict
      rw [he]
      dsimp only
      rw [Bool.and_eq_true, bne_iff_ne]
      refine ⟨hene, ?_⟩
      rw [List.find?_isSome]
      refine ⟨other, hother, ?_⟩
      rw [Bool.and_eq_true, beq_iff_eq, bne_iff_ne]
      exact ⟨heq, hne⟩
    have h1 : (update_cliente db cliente_id u).1 =
        UpdateResult.validationError "El email ya está registrado" := by
      unfold update_cliente
      rw [hfind]
      dsimp only
      rw [if_neg hnotempty, if_pos hconf]
    refine ⟨h1, ?_, ?_⟩
    · rw [h1]
      simp
    · intro x
      rw [h1]
      simp
  · intro u he
    have hnotempty : ¬ u.isEmptyUpdate = true := by
      unfold ClienteUpdate.isEmptyUpdate
      rw [he]
      simp
    have hconf : ¬ emailConflict db cliente_id c u = true := by
      unfold emailConflict
      rw [he]
      simp
    unfold update_cliente
    rw [hfind]
    dsimp only
    rw [if_neg hnotempty, if_neg hconf]

/-- Witness for C2: updating `juan`'s email to `ana`'s address errors, while
re-submitting `juan`'s own email succeeds. -/
theorem c2_update_cliente_email_conflict_witness :
    (update_cliente dbJA 100001 emailToAna).1 =
      .validationError "El email ya está registrado" ∧
    update_cliente dbJA 100001 selfEmailUpdate =
      (.ok (applyUpdate juan selfEmailUpdate),
        { dbJA with clientes := dbJA.clientes.map fun x =>
            if x.id == 100001 then applyUpdate x selfEmailUpdate else x }) :=
  ⟨((c2_update_cliente_email_conflict dbJA 100001 juan (by decide) (by decide)).1
      emailToAna "ana@mail.com" rfl ⟨ana, by decide, by decide, rfl⟩).1,
   (c2_update_cliente_email_conflict dbJA 100001 juan (by decide) (by decide)).2
      selfEmailUpdate rfl⟩

/-- C3: deleting by id has a three-way outcome: not-found when no customer
holds the id (store untouched); blocked when the customer has at least one
associated order (store untouched, nothing cascaded); deleted otherwise,
with the record removed, a subsequent lookup failing, and the orders table
untouched in every case. -/
theorem c3_delete_cliente_trichotomy (db : DB) (cliente_id : Nat) :
    (get_cliente_by_id db cliente_id = none →
      delete_cliente db cliente_id = (.notFound, db)) ∧
    (∀ c, get_cliente_by_id db cliente_id = some c → clienteOrdenes db c ≠ [] →
      delete_cliente db cliente_id = (.blocked, db)) ∧
    (∀ c, get_cliente_by_id db cliente_id = some c → clienteOrdenes db c = [] →
      (delete_cliente db cliente_id).1 = .deleted ∧
      (delete_cliente db cliente_id).2.clientes =
        db.clientes.filter (fun x => x.id != cliente_id) ∧
      get_cliente_by_id (delete_cliente db cliente_id).2 cliente_id = none ∧
      (delete_cliente db cliente_id).2.ordenes = db.ordenes) := by
  refine ⟨?_, ?_, ?_⟩
  · intro h
    unfold get_cliente_by_id at h
    unfold delete_cliente
    rw [h]
  · intro c h hord
    unfold get_cliente_by_id at h
    unfold delete_cliente
    rw [h]
    dsimp only
    rw [if_neg]
    rw [List.isEmpty_iff]
    exact hord
  · intro c h hord
    unfold get_cliente_by_id at h
    have hempty : (clienteOrdenes db c).isEmpty = true := by
      rw [List.isEmpty_iff]
      exact hord
    have hres : delete_cliente db cliente_id =
        (.deleted,
          { clientes := db.clientes.filter (fun x => x.id != cliente_id)
            ordenes := db.ordenes.filter (fun o => o.id_cliente != c.id) }) := by
      unfold delete_cliente
      rw [h]
      dsimp only
      rw [if_pos hempty]
    have hordkeep : db.ordenes.filter (fun o => o.id_cliente != c.id) = db.ordenes := by
      rw [List.filter_eq_self]
      intro o ho
      rw [bne_iff_ne]
      unfold clienteOrdenes at hord
      intro hoeq
      have : o ∈ db.ordenes.filter (fun o => o.id_cliente == c.id) := by
        rw [List.mem_filter]
        exact ⟨ho, by rw [beq_iff_eq]; exact hoeq⟩
      rw [hord] at this
      cases this
    refine ⟨by rw [hres], by rw [hres], ?_, by rw [hres]; exact hordkeep⟩
    rw [hres]
    unfold get_cliente_by_id
    rw [List.find?_eq_none]
    intro x hx
    rw [List.mem_filter] at hx
    have hxne := hx.2
    rw [bne_iff_ne] at hxne
    rw [beq_iff_eq]
    exact hxne

/-- Witness for C3: an absent id is not-found; deleting `juan` while he has
an order is blocked and changes nothing; deleting `juan` without orders
removes exactly his record and leaves the orders table untouched. -/
theorem c3_delete_cliente_trichotomy_witness :
    delete_cliente dbJA 999999 = (.notFound, dbJA) ∧
    delete_cliente dbConOrden 100001 = (.blocked, dbConOrden) ∧
    ((delete_cliente dbJA 100001).1 = .deleted ∧
      (delete_cliente dbJA 100001).2.clientes =
        dbJA.clientes.filter (fun x => x.id != 100001) ∧
      get_cliente_by_id (delete_cliente dbJA 100001).2 100001 = none ∧
      (delete_cliente dbJA 100001).2.ordenes = dbJA.ordenes) :=
  ⟨(c3_delete_cliente_trichotomy dbJA 999999).1 (by decide),
   (c3_delete_cliente_trichotomy dbConOrden 100001).2.1 juan (by decide) (by decide),
   (c3_delete_cliente_trichotomy dbJA 100001).2.2 juan (by decide) (by decide)⟩

/-- C5: the returned `total_count` is the number of customers matching the
query before the `offset`/`limit` window is applied, whatever the window;
with no query it is the full population size. -/
theorem c5_search_total_count (db : DB) (q : Option String) (sort ord : String)
    (offset limit : Nat) :
    (search_and_sort_clientes db q sort ord offset limit).2 =
      (filterClientes db q).length ∧
    (search_and_sort_clientes db none sort ord offset limit).2 =
      db.clientes.length :=
  ⟨rfl, rfl⟩

/-- C6: with `page ≥ 1` and `limit ∈ [1, 100]`, the returned page is the
contiguous slice of at most `limit` records starting at `(page − 1) × limit`
of the match set sorted on the single chosen key in the chosen direction:
the sorted list is a permutation of the match set ordered by the key, the
slice is exact, and its length never exceeds `limit`. -/
theorem c6_search_pagination (db : DB) (q : Option String) (sort ord : String)
    (page limit : Nat) (hpage : 1 ≤ page) (hlim1 : 1 ≤ limit) (hlim2 : limit ≤ 100) :
    (search_and_sort_clientes db q sort ord ((page - 1) * limit) limit).1 =
      ((sortClientes sort ord (filterClientes db q)).drop ((page - 1) * limit)).take limit ∧
    List.Perm (sortClientes sort ord (filterClientes db q)) (filterClientes db q) ∧
    List.Sorted (clienteRel sort ord) (sortClientes sort ord (filterClientes db q)) ∧
    (search_and_sort_clientes db q sort ord ((page - 1) * limit) limit).1.length ≤ limit := by
  refine ⟨rfl, ?_, ?_, ?_⟩
  · exact @List.perm_insertionSort Cliente (clienteRel sort ord)
      (clienteRelDecidable sort ord) (filterClientes db q)
  · exact @List.sorted_insertionSort Cliente (clienteRel sort ord)
      (clienteRelDecidable sort ord)
      ⟨fun a b => clienteLe_total sort ord a b⟩
      ⟨fun a b c h1 h2 => clienteLe_trans sort ord a b c h1 h2⟩
      (filterClientes db q)
  · exact List.length_take_le _ _

/-- Witness for C6: over the three seeded customers sorted by `apellido`
ascending (`Avila`, `Duran`, `Zapata`), page 2 with limit 1 is exactly the
second record, `juan` (apellido `Duran`). -/
theorem c6_search_pagination_witness :
    (search_and_sort_clientes dbJAB none "apellido" "asc" ((2 - 1) * 1) 1).1 =
      ((sortClientes "apellido" "asc" (filterClientes dbJAB none)).drop ((2 - 1) * 1)).take 1 ∧
    (search_and_sort_clientes dbJAB none "apellido" "asc" 1 1).1 = [juan] :=
  ⟨(c6_search_pagination dbJAB none "apellido" "asc" 2 1
      (by decide) (by decide) (by decide)).1,
   by decide⟩

/-- Helper: a string whose lowering contains no `%` has no case-insensitive
occurrence of the query `"%"`. -/
theorem pct_not_substringCI (s : String) (hs : '%' ∉ lowerList s.data) :
    ¬ SubstringCI "%" s := by
  rintro ⟨l, r, hl⟩
  apply hs
  rw [hl]
  have hq : lowerList "%".data = ['%'] := rfl
  rw [hq]
  exact List.mem_append.mpr (Or.inr (List.mem_append.mpr (Or.inl (List.mem_cons_self '%' []))))

/-- C4 counterexample: the source feeds the raw query into a `LIKE` pattern,
so the query `"%"` (not a substring of any of `juan`'s fields) nevertheless
matches `juan` — the claimed substring characterisation fails for queries
containing `LIKE` wildcards. -/
theorem c4_search_wildcard_counterexample :
    ¬ (juan ∈ filterClientes dbJuan (some "%") ↔
        juan ∈ dbJuan.clientes ∧
          (SubstringCI "%" juan.nombre ∨ SubstringCI "%" juan.apellido ∨
            SubstringCI "%" juan.email)) := by
  intro hiff
  have hmem : juan ∈ filterClientes dbJuan (some "%") := by decide
  rcases (hiff.mp hmem).2 with h | h | h
  · exact pct_not_substringCI juan.nombre (by decide) h
  · exact pct_not_substringCI juan.apellido (by decide) h
  · exact pct_not_substringCI juan.email (by decide) h

/-- C4 (amended): for a non-empty query containing no `LIKE` wildcard
character (`%` or `_`), a stored customer is in the match set exactly when
the query occurs case-insensitively as a substring of the customer's
`nombre`, `apellido` or `email`. -/
theorem c4_search_query_matching (db : DB) (q : String) (c : Cliente)
    (hne : q.data ≠ []) (hclean : CleanQuery q.data) :
    c ∈ filterClientes db (some q) ↔
      c ∈ db.clientes ∧
        (SubstringCI q c.nombre ∨ SubstringCI q c.apellido ∨ SubstringCI q c.email) := by
  unfold filterClientes
  have hq : ¬ (q.data.isEmpty = true) := by
    rw [List.isEmpty_iff]
    exact hne
  dsimp only
  rw [if_neg hq, List.mem_filter]
  unfold matchesQuery ilikeContains
  have hcl := cleanQuery_lower hclean
  unfold SubstringCI
  simp only [Bool.or_eq_true]
  rw [ilike_iff (lowerList q.data) hcl, ilike_iff (lowerList q.data) hcl,
    ilike_iff (lowerList q.data) hcl, or_assoc]

/-- Witness for C4: the spec's example query `"duran"` is wildcard-free and
the characterisation holds for it on the seeded store. -/
theorem c4_search_query_matching_witness :
    juan ∈ filterClientes dbJuan (some "duran") ↔
      juan ∈ dbJuan.clientes ∧
        (SubstringCI "duran" juan.nombre ∨ SubstringCI "duran" juan.apellido ∨
          SubstringCI "duran" juan.email) :=
  c4_search_query_matching dbJuan "duran" juan (by decide) (by decide)

/-- C7: a token issued for an identity and verified before its expiry
resolves to that identity; at or after expiry it resolves to `none`, as does
any malformed token or any token signed under a different key. -/
theorem c7_token_roundtrip (identity : String) (issued : Nat) (delta : Option Nat)
    (verifyTime : Nat) :
    (verifyTime < issued + delta.getD (ACCESS_TOKEN_EXPIRE_MINUTES * 60) →
      decode_token (create_access_token [("sub", identity)] issued delta) verifyTime =
        some identity) ∧
    (issued + delta.getD (ACCESS_TOKEN_EXPIRE_MINUTES * 60) ≤ verifyTime →
      decode_token (create_access_token [("sub", identity)] issued delta) verifyTime =
        none) ∧
    (∀ raw, decode_token (.malformed raw) verifyTime = none) ∧
    (∀ claims e key alg, key ≠ SECRET_KEY →
      decode_token (.signed claims e key alg) verifyTime = none) := by
  refine ⟨?_, ?_, fun raw => rfl, ?_⟩
  · intro h
    unfold create_access_token decode_token
    dsimp only
    rw [if_pos]
    · rfl
    · simp only [beq_self_eq_true, Bool.true_and, decide_eq_true_eq]
      exact h
  · intro h
    unfold create_access_token decode_token
    dsimp only
    rw [if_neg]
    simp only [beq_self_eq_true, Bool.true_and, decide_eq_true_eq]
    omega
  · intro claims e key alg hkey
    unfold decode_token
    dsimp only
    rw [if_neg]
    have hk : (key == SECRET_KEY) = false := by
      rw [beq_eq_false_iff_ne]
      exact hkey
    simp [hk]

/-- Witness for C7: a token for `"alice"` issued at time 0 with the default
expiry verifies to `"alice"` at time 10 and to `none` at time 3600; a
malformed token and a token under another key verify to `none`. -/
theorem c7_token_roundtrip_witness :
    decode_token (create_access_token [("sub", "alice")] 0 none) 10 = some "alice" ∧
    decode_token (create_access_token [("sub", "alice")] 0 none) 3600 = none ∧
    decode_token (.malformed "garbage") 10 = none ∧
    decode_token (.signed [("sub", "alice")] 99999 "wrongkey" "HS256") 10 = none :=
  ⟨(c7_token_roundtrip "alice" 0 none 10).1 (by decide),
   (c7_token_roundtrip "alice" 0 none 3600).2.1 (by decide),
   (c7_token_roundtrip "alice" 0 none 10).2.2.1 "garbage",
   (c7_token_roundtrip "alice" 0 none 10).2.2.2 [("sub", "alice")] 99999 "wrongkey" "HS256"
     (by decide)⟩

/-- C9 counterexample: on a store holding only `alice`, authentication with
an unknown username and authentication with a known username but wrong
password both return `none`, yet the first performs zero hash verifications
and the second performs one — the two failure modes are not constant-effort,
so they are distinguishable, contrary to the claim. -/
theorem c9_authenticate_timing_counterexample :
    (authenticate_user exUsers "mallory" "guess").1 = none ∧
    (authenticate_user exUsers "alice" "wrongpassword").1 = none ∧
    (authenticate_user exUsers "mallory" "guess").2 = 0 ∧
    (authenticate_user exUsers "alice" "wrongpassword").2 = 1 ∧
    (authenticate_user exUsers "mallory" "guess").2 ≠
      (authenticate_user exUsers "alice" "wrongpassword").2 := by
  decide

/-- C9 (amended): both failure modes return `none`, but the hash
verification effort differs: an unknown username performs no verification at
all, while a known username with a wrong password performs exactly one. -/
theorem c9_authenticate_failure_modes (users : List User) (username password : String) :
    (users.find? (fun u => u.username == username) = none →
      authenticate_user users username password = (none, 0)) ∧
    (∀ usr, users.find? (fun u => u.username == username) = some usr →
      verify_password password usr.hashed_password = false →
      authenticate_user users username password = (none, 1)) := by
  constructor
  · intro h
    unfold authenticate_user
    rw [h]
  · intro usr h hv
    unfold authenticate_user
    rw [h]
    dsimp only
    rw [if_neg]
    rw [hv]
    exact Bool.false_ne_true

/-- Witness for C9 (amended): the two failure modes on the concrete store. -/
theorem c9_authenticate_failure_modes_witness :
    authenticate_user exUsers "mallory" "guess" = (none, 0) ∧
    authenticate_user exUsers "alice" "wrongpassword" = (none, 1) :=
  ⟨(c9_authenticate_failure_modes exUsers "mallory" "guess").1 (by decide),
   (c9_authenticate_failure_modes exUsers "alice" "wrongpassword").2
     ⟨1, "alice", get_password_hash "hunter2secret"⟩ (by decide) (by decide)⟩
